import Mathlib

/-!
# Verification of the QQbot delivery-queue and connection-pool core

Shallow embedding of `src/core/queue/message_queue.py`,
`src/core/queue/request_queue.py` and `src/core/database/connection_pool.py`.

Python `time.time()` floats are embedded as exact rationals `ℚ`; each
`time.time()` call site becomes an explicit parameter of the embedded
function.  The standard-library `queue.PriorityQueue` (a binary min-heap
over the item's `__lt__`) is embedded as a list together with `popMin`,
which removes a minimal element with respect to `__lt__` — exactly the
contract `heapq` provides for `queue[0]` / `get()`.  Concurrency is
embedded by interleaving: every mutation of shared state happens under
the pool's lock in the source, so reachable states are those produced by
a sequence of atomic operations.
-/

namespace QQbot

/-! ## Priority-queue embedding (`queue.PriorityQueue` backed by `heapq`) -/

/-- Remove a minimal element with respect to the strict comparison `lt`
(`__lt__`), returning it and the remaining elements.  Among ties the
leftmost element is returned; Python's heap makes an arbitrary choice
among ties, and every theorem below depends only on minimality. -/
def popMin (lt : α → α → Bool) : List α → Option (α × List α)
  | [] => none
  | a :: rest =>
    match popMin lt rest with
    | none => some (a, [])
    | some (m, r) => if lt m a then some (m, a :: r) else some (a, rest)

/-- Repeatedly `popMin` until empty, with explicit fuel. -/
def drainAux (lt : α → α → Bool) : Nat → List α → List α
  | 0, _ => []
  | n + 1, l =>
    match popMin lt l with
    | none => []
    | some (m, r) => m :: drainAux lt n r

/-- The sequence in which `PriorityQueue.get` hands out the elements of `l`. -/
def drain (lt : α → α → Bool) (l : List α) : List α :=
  drainAux lt l.length l

theorem popMin_none (lt : α → α → Bool) (l : List α) :
    popMin lt l = none ↔ l = [] := by
  cases l with
  | nil => simp [popMin]
  | cons a rest =>
    simp only [popMin]
    cases h : popMin lt rest with
    | none => simp
    | some p =>
      obtain ⟨m, r⟩ := p
      by_cases hlt : lt m a <;> simp [hlt]

theorem popMin_perm (lt : α → α → Bool) (l : List α) (m : α) (r : List α)
    (h : popMin lt l = some (m, r)) : l.Perm (m :: r) := by
  induction l generalizing m r with
  | nil => simp [popMin] at h
  | cons a rest ih =>
    simp only [popMin] at h
    cases hr : popMin lt rest with
    | none =>
      rw [hr] at h
      obtain rfl := (popMin_none lt rest).mp hr
      simp at h
      obtain ⟨rfl, rfl⟩ := h
      exact List.Perm.refl _
    | some p =>
      obtain ⟨m', r'⟩ := p
      rw [hr] at h
      by_cases hlt : lt m' a
      · simp [hlt] at h
        obtain ⟨rfl, rfl⟩ := h
        exact ((ih _ _ hr).cons a).trans (List.Perm.swap _ a _)
      · simp [hlt] at h
        obtain ⟨rfl, rfl⟩ := h
        exact List.Perm.refl _

theorem popMin_length (lt : α → α → Bool) (l : List α) (m : α) (r : List α)
    (h : popMin lt l = some (m, r)) : r.length + 1 = l.length := by
  have := (popMin_perm lt l m r h).length_eq
  simpa using this.symm

/-- Minimality of the popped element, assuming `lt` is asymmetric and
negatively transitive (both hold for the lexicographic `__lt__` used by
the queues). -/
theorem popMin_min (lt : α → α → Bool)
    (hA : ∀ a b, lt a b = true → lt b a = false)
    (hN : ∀ a b c, lt a b = false → lt b c = false → lt a c = false)
    (l : List α) (m : α) (r : List α)
    (h : popMin lt l = some (m, r)) : ∀ x ∈ r, lt x m = false := by
  induction l generalizing m r with
  | nil => simp [popMin] at h
  | cons a rest ih =>
    simp only [popMin] at h
    cases hr : popMin lt rest with
    | none =>
      rw [hr] at h
      simp at h
      obtain ⟨rfl, rfl⟩ := h
      intro x hx
      simp at hx
    | some p =>
      obtain ⟨m', r'⟩ := p
      rw [hr] at h
      by_cases hlt : lt m' a
      · simp [hlt] at h
        obtain ⟨rfl, rfl⟩ := h
        intro x hx
        rcases List.mem_cons.mp hx with rfl | hx'
        · exact hA _ _ hlt
        · exact ih _ _ hr x hx'
      · simp [hlt] at h
        obtain ⟨rfl, rfl⟩ := h
        intro x hx
        have hperm := popMin_perm lt rest m' r' hr
        have hx' : x ∈ m' :: r' := hperm.mem_iff.mp hx
        rcases List.mem_cons.mp hx' with rfl | hx''
        · exact Bool.of_not_eq_true hlt
        · exact hN x _ a (ih _ _ hr x hx'') (Bool.of_not_eq_true hlt)

theorem drainAux_chain (lt : α → α → Bool)
    (hA : ∀ a b, lt a b = true → lt b a = false)
    (hN : ∀ a b c, lt a b = false → lt b c = false → lt a c = false) :
    ∀ (n : Nat) (l : List α), l.length ≤ n →
      List.Chain' (fun a b => lt b a = false) (drainAux lt n l) := by
  intro n
  induction n with
  | zero => intro l _; simp [drainAux]
  | succ k ih =>
    intro l hl
    simp only [drainAux]
    cases h : popMin lt l with
    | none => simp
    | some p =>
      obtain ⟨m, r⟩ := p
      have hlen : r.length + 1 = l.length := popMin_length lt l m r h
      have hrk : r.length ≤ k := by omega
      refine List.Chain'.cons' (ih r hrk) ?_
      intro y hy
      cases k with
      | zero =>
        have : r = [] := List.length_eq_zero.mp (Nat.le_zero.mp hrk)
        subst this
        simp [drainAux] at hy
      | succ k' =>
        simp only [drainAux] at hy
        cases h2 : popMin lt r with
        | none => rw [h2] at hy; simp at hy
        | some p2 =>
          obtain ⟨m2, r2⟩ := p2
          rw [h2] at hy
          simp at hy
          subst hy
          have hm2 : m2 ∈ r := (popMin_perm lt r m2 r2 h2).mem_iff.mpr (by simp)
          exact popMin_min lt hA hN l m r h m2 hm2

/-- Draining the queue yields a sequence ordered by `¬ b < a`
(i.e. non-decreasing in the key that `lt` compares). -/
theorem drain_chain (lt : α → α → Bool)
    (hA : ∀ a b, lt a b = true → lt b a = false)
    (hN : ∀ a b c, lt a b = false → lt b c = false → lt a c = false)
    (l : List α) :
    List.Chain' (fun a b => lt b a = false) (drain lt l) :=
  drainAux_chain lt hA hN l.length l (Nat.le_refl _)

/-! ## `message_queue.py` : `QueuedMessage`, `MessageQueue` -/

/-- `QueuedMessage.__init__`.  The opaque `message` payload is a `String`;
the `bot` handle is not part of the state — the api calls made through it
are embedded as the `Transport` environment below. -/
structure QueuedMessage where
  message : String
  target_id : Nat
  message_type : String
  priority : Nat
  retry_count : Nat
  max_retries : Nat
  delay : ℚ
  create_time : ℚ
  scheduled_time : ℚ
  deriving Repr, DecidableEq

/-- `QueuedMessage.__init__` with `now = time.time()` made explicit:
`create_time = now`, `scheduled_time = create_time + delay`. -/
def QueuedMessage.make (now : ℚ) (message : String) (target_id : Nat)
    (message_type : String) (priority : Nat) (retry_count : Nat)
    (max_retries : Nat) (delay : ℚ) : QueuedMessage :=
  { message := message
    target_id := target_id
    message_type := message_type
    priority := priority
    retry_count := retry_count
    max_retries := max_retries
    delay := delay
    create_time := now
    scheduled_time := now + delay }

/-- `QueuedMessage.__lt__`: compare by `priority`, then `scheduled_time`. -/
def QueuedMessage.lt (a b : QueuedMessage) : Bool :=
  if a.priority ≠ b.priority then a.priority < b.priority
  else a.scheduled_time < b.scheduled_time

/-- `MessageQueue.__init__` state.  The `PriorityQueue` is its multiset of
elements, as a list; `task` (the asyncio handle) carries no data relevant
to the embedded behaviour beyond `running`. -/
structure MessageQueue where
  queue : List QueuedMessage
  rate_limit : ℚ
  random_delay : Bool
  last_send_time : ℚ
  running : Bool
  deriving Repr, DecidableEq

/-- The bot api consumed by `_send_message`.  A call returns
`some status` for a response `{"status": status, ...}`; `none` embeds a
thrown exception or a falsy response. -/
structure Transport where
  post_group_msg : Nat → String → Option String
  post_private_msg : Nat → String → Option String

/-- `MessageQueue._send_message`.  Returns `(success, api_called)`:
`success` is the boolean the coroutine returns, `api_called` records
whether any transport call was made (the `else` branch logs and returns
`False` without touching the api). -/
def MessageQueue.sendMessage (tr : Transport) (m : QueuedMessage) :
    Bool × Bool :=
  if m.message_type = "group" then
    match tr.post_group_msg m.target_id m.message with
    | some s => (s = "ok", true)
    | none => (false, true)
  else if m.message_type = "private" then
    match tr.post_private_msg m.target_id m.message with
    | some s => (s = "ok", true)
    | none => (false, true)
  else
    (false, false)

/-- `MessageQueue.put`: build the `QueuedMessage` (with the constructor
defaults `retry_count=0`, `max_retries=3`) and insert it.  The backing
`PriorityQueue()` is unbounded, so insertion always succeeds and the
`except` branch returning `False` is unreachable. -/
def MessageQueue.put (st : MessageQueue) (now : ℚ) (message : String)
    (target_id : Nat) (message_type : String) (priority : Nat) (delay : ℚ) :
    MessageQueue × Bool :=
  let qm := QueuedMessage.make now message target_id message_type priority 0 3 delay
  ({ st with queue := st.queue ++ [qm] }, true)

/-- What one iteration of `_process_queue` did. -/
inductive StepEvent where
  /-- queue empty: `await asyncio.sleep(0.1); continue` -/
  | idleEmpty : StepEvent
  /-- `current_time - last_send_time < rate_limit`: sleep and continue -/
  | idleRate : StepEvent
  /-- head item's `scheduled_time` still in the future: sleep and continue -/
  | idleNotDue : StepEvent
  /-- the item was dequeued and `_send_message` was attempted;
  `requeued` records whether the failure path re-inserted it -/
  | attempt (m : QueuedMessage) (success : Bool) (requeued : Bool) : StepEvent
  deriving Repr, DecidableEq

/-- One iteration of the `while self.running` body of
`MessageQueue._process_queue`.  The three `time.time()` call sites become
`t0` (`current_time`), `t1` (read into `last_send_time` after the send)
and `t2` (the base of the 2-second retry backoff). -/
def MessageQueue.processStep (st : MessageQueue) (t0 t1 t2 : ℚ)
    (tr : Transport) : MessageQueue × StepEvent :=
  match popMin QueuedMessage.lt st.queue with
  | none => (st, .idleEmpty)
  | some (m, rest) =>
    if t0 - st.last_send_time < st.rate_limit then (st, .idleRate)
    else if m.scheduled_time > t0 then (st, .idleNotDue)
    else
      let success := (MessageQueue.sendMessage tr m).1
      let st1 := { st with queue := rest, last_send_time := t1 }
      if ¬ success ∧ m.retry_count < m.max_retries then
        let m' := { m with retry_count := m.retry_count + 1,
                           scheduled_time := t2 + 2 }
        ({ st1 with queue := rest ++ [m'] }, .attempt m success true)
      else
        (st1, .attempt m success false)

/-- Iterate `processStep` over a list of `(t0, t1, t2)` time samples,
collecting the events. -/
def MessageQueue.run (st : MessageQueue) (tr : Transport) :
    List (ℚ × ℚ × ℚ) → MessageQueue × List StepEvent
  | [] => (st, [])
  | (t0, t1, t2) :: ticks =>
    let (st', ev) := MessageQueue.processStep st t0 t1 t2 tr
    let (stf, evs) := MessageQueue.run st' tr ticks
    (stf, ev :: evs)

/-- Number of delivery attempts among a list of events. -/
def countAttempts (evs : List StepEvent) : Nat :=
  (evs.filter fun ev => match ev with
    | .attempt _ _ _ => true
    | _ => false).length

/-! ## `request_queue.py` : `QueuedRequest`, `RequestQueue` -/

/-- `QueuedRequest.__init__` (bot handle elided as for messages). -/
structure QueuedRequest where
  flag : String
  sub_type : String
  approve : Bool
  reason : String
  priority : Nat
  retry_count : Nat
  max_retries : Nat
  delay : ℚ
  create_time : ℚ
  scheduled_time : ℚ
  deriving Repr, DecidableEq

/-- `QueuedRequest.__lt__`: compare by `priority`, then `scheduled_time`. -/
def QueuedRequest.lt (a b : QueuedRequest) : Bool :=
  if a.priority ≠ b.priority then a.priority < b.priority
  else a.scheduled_time < b.scheduled_time

/-- `RequestQueue.__init__` state. -/
structure RequestQueue where
  queue : List QueuedRequest
  rate_limit : ℚ
  random_delay : Bool
  last_process_time : ℚ
  running : Bool
  deriving Repr, DecidableEq

/-- What one iteration of `RequestQueue._process_queue` did. -/
inductive ReqStepEvent where
  | idleEmpty : ReqStepEvent
  | idleRate : ReqStepEvent
  | idleNotDue : ReqStepEvent
  | attempt (m : QueuedRequest) (success : Bool) (requeued : Bool) : ReqStepEvent
  deriving Repr, DecidableEq

/-- One iteration of the `while self.running` body of
`RequestQueue._process_queue`; `pr` is the boolean outcome of
`await self._process_request(...)` (which consults the bot api), and
`t0`, `t1`, `t2` are the three `time.time()` call sites as for
`MessageQueue.processStep`. -/
def RequestQueue.processStep (st : RequestQueue) (t0 t1 t2 : ℚ)
    (pr : QueuedRequest → Bool) : RequestQueue × ReqStepEvent :=
  match popMin QueuedRequest.lt st.queue with
  | none => (st, .idleEmpty)
  | some (m, rest) =>
    if t0 - st.last_process_time < st.rate_limit then (st, .idleRate)
    else if m.scheduled_time > t0 then (st, .idleNotDue)
    else
      let success := pr m
      let st1 := { st with queue := rest, last_process_time := t1 }
      if ¬ success ∧ m.retry_count < m.max_retries then
        let m' := { m with retry_count := m.retry_count + 1,
                           scheduled_time := t2 + 2 }
        ({ st1 with queue := rest ++ [m'] }, .attempt m success true)
      else
        (st1, .attempt m success false)

/-! ## `connection_pool.py` : `Connection`, `ConnectionPool` -/

/-- The pool-relevant state of a `Connection` wrapper.  `id` stands for
the identity of the underlying sqlite handle (Python compares connections
by identity in `release`); `conn`'s sqlite internals are not modelled. -/
structure PoolConn where
  id : Nat
  in_use : Bool
  last_used : ℚ
  deriving Repr, DecidableEq

/-- `ConnectionPool.__init__` state.  `next_id` generates fresh identities
for `_create_connection`; `timeout` is kept as the configuration knob. -/
structure ConnectionPool where
  max_connections : Nat
  timeout : ℚ
  connections : List PoolConn
  connection_count : Nat
  next_id : Nat
  deriving Repr, DecidableEq

/-- `ConnectionPool.__init__`. -/
def ConnectionPool.init (max_connections : Nat) (timeout : ℚ) : ConnectionPool :=
  { max_connections := max_connections
    timeout := timeout
    connections := []
    connection_count := 0
    next_id := 0 }

/-- The `for connection in self.connections: if not connection.in_use`
scan of `acquire`: mark the first idle connection `in_use` and return it
together with the updated list. -/
def markFirstIdle : List PoolConn → Option (PoolConn × List PoolConn)
  | [] => none
  | c :: cs =>
    if c.in_use then
      match markFirstIdle cs with
      | none => none
      | some (m, cs') => some (m, c :: cs')
    else
      some ({ c with in_use := true }, { c with in_use := true } :: cs)

/-- Outcome of `ConnectionPool.acquire`: a connection plus the new pool
state, or the `TimeoutError` (which reports `connection_count`). -/
inductive AcquireResult where
  | ok (c : PoolConn) (st : ConnectionPool) : AcquireResult
  | timeoutError (connection_count : Nat) : AcquireResult
  deriving Repr, DecidableEq

/-- The wait loop of `acquire`: the lock is NOT held across the
`time.sleep(0.1)`, so each poll re-acquires the lock and observes a pool
state possibly mutated by other threads; `observed` lists those states,
one per poll iteration that starts before `timeout` elapses.  When every
observed state still has no idle connection the loop falls through to
`raise TimeoutError(...)`. -/
def acquirePoll : ConnectionPool → List ConnectionPool → AcquireResult
  | last, [] => .timeoutError last.connection_count
  | _, s :: rest =>
    match markFirstIdle s.connections with
    | some (c, conns) => .ok c { s with connections := conns }
    | none => acquirePoll s rest

/-- `ConnectionPool.acquire`, with `now` the creation timestamp a fresh
`Connection.__init__` would record and `observed` the states seen by the
out-of-lock wait loop (empty when the first locked section succeeds). -/
def ConnectionPool.acquire (st : ConnectionPool) (now : ℚ)
    (observed : List ConnectionPool) : AcquireResult :=
  match markFirstIdle st.connections with
  | some (c, conns) => .ok c { st with connections := conns }
  | none =>
    if st.connection_count < st.max_connections then
      let fresh : PoolConn := { id := st.next_id, in_use := true, last_used := now }
      .ok fresh { st with connections := st.connections ++ [fresh],
                          connection_count := st.connection_count + 1,
                          next_id := st.next_id + 1 }
    else
      acquirePoll st observed

/-- `ConnectionPool.release`: `if connection in self.connections`, clear
`in_use` and stamp `last_used`.  Membership is by identity, embedded as
the `id` field. -/
def ConnectionPool.release (st : ConnectionPool) (cid : Nat) (now : ℚ) :
    ConnectionPool :=
  { st with connections := st.connections.map fun c =>
      if c.id = cid then { c with in_use := false, last_used := now } else c }

/-- `ConnectionPool.cleanup`: close and remove the idle connections whose
`last_used` is more than `max_idle_time` ago, decrementing
`connection_count` once per removal. -/
def ConnectionPool.cleanup (st : ConnectionPool) (now : ℚ) (max_idle_time : ℚ) :
    ConnectionPool :=
  let keep := st.connections.filter fun c =>
    c.in_use || ¬ (now - c.last_used > max_idle_time)
  { st with connections := keep,
            connection_count :=
              st.connection_count - (st.connections.length - keep.length) }

/-- `ConnectionPool.close_all`: close every connection, clear the list,
reset the count. -/
def ConnectionPool.close_all (st : ConnectionPool) : ConnectionPool :=
  { st with connections := [], connection_count := 0 }

/-- Number of connections currently marked `in_use`. -/
def ConnectionPool.countInUse (st : ConnectionPool) : Nat :=
  (st.connections.filter fun c => c.in_use).length

/-- One atomic pool mutation.  Every mutation in the source happens with
`self.lock` held, so any interleaving of concurrent `acquire` / `release`
/ `cleanup` / `close_all` calls is a sequence of these operations; a
blocked `acquire` completing from its wait loop mutates the state exactly
as `markFirstIdle` does at that instant, i.e. as `.acquire` applied then. -/
inductive PoolOp where
  | acquire (now : ℚ) : PoolOp
  | release (cid : Nat) (now : ℚ) : PoolOp
  | cleanup (now : ℚ) (max_idle_time : ℚ) : PoolOp
  | closeAll : PoolOp

/-- State effect of one atomic pool operation (a timed-out `acquire`
raises without mutating the pool). -/
def applyPoolOp (st : ConnectionPool) : PoolOp → ConnectionPool
  | .acquire now =>
    match st.acquire now [] with
    | .ok _ st' => st'
    | .timeoutError _ => st
  | .release cid now => st.release cid now
  | .cleanup now m => st.cleanup now m
  | .closeAll => st.close_all

/-- The pool state reached from a fresh pool by a sequence of atomic
operations. -/
def applyPoolOps (st : ConnectionPool) (ops : List PoolOp) : ConnectionPool :=
  ops.foldl applyPoolOp st

/-- Observable outcome of a scoped (`with`-statement) exit: which
connection id received `commit` / `rollback`, which was released, the
resulting pool state, and whether an exception propagates past the block
(`__exit__` returns `None`, which is falsy, so it always does). -/
structure ScopedExitEffect where
  committed : Option Nat
  rolled_back : Option Nat
  released : Option Nat
  st : ConnectionPool
  propagates : Bool
  deriving Repr, DecidableEq

/-- `Connection.__exit__` followed by the `Connection.close` it calls:
rollback on exception else commit — on `self` — then release `self` back
to the pool. -/
def connectionExit (cid : Nat) (exc : Bool) (st : ConnectionPool) (now : ℚ) :
    ScopedExitEffect :=
  { committed := if exc then none else some cid
    rolled_back := if exc then some cid else none
    released := some cid
    st := st.release cid now
    propagates := exc }

/-- `ConnectionPool.__exit__`: identical commit/rollback/close sequence,
but performed on `self.connections[-1]` — the LAST connection of the
pool's list, whatever was acquired by `__enter__`.  `none` when the list
is empty (`connections[-1]` would raise `IndexError`). -/
def connectionPoolExit (st : ConnectionPool) (exc : Bool) (now : ℚ) :
    Option ScopedExitEffect :=
  match st.connections.getLast? with
  | none => none
  | some c => some (connectionExit c.id exc st now)

/-! ## Helper lemmas about the queue comparisons -/

theorem qmLt_iff (a b : QueuedMessage) :
    QueuedMessage.lt a b = true ↔
      a.priority < b.priority ∨
        (a.priority = b.priority ∧ a.scheduled_time < b.scheduled_time) := by
  unfold QueuedMessage.lt
  by_cases hp : a.priority = b.priority <;> simp [hp] <;> omega

theorem qmLt_eq_false_iff (a b : QueuedMessage) :
    QueuedMessage.lt a b = false ↔
      b.priority < a.priority ∨
        (b.priority = a.priority ∧ b.scheduled_time ≤ a.scheduled_time) := by
  rw [← Bool.not_eq_true, qmLt_iff]
  constructor
  · intro h
    rcases Nat.lt_trichotomy a.priority b.priority with hlt | heq | hgt
    · exact absurd (Or.inl hlt) h
    · exact Or.inr ⟨heq.symm, le_of_not_lt fun hs => h (Or.inr ⟨heq, hs⟩)⟩
    · exact Or.inl hgt
  · rintro (h | ⟨h, h'⟩) <;> rintro (h2 | ⟨h2, h3⟩)
    · omega
    · omega
    · omega
    · exact absurd h3 (not_lt.mpr h')

theorem qmLt_asymm (a b : QueuedMessage)
    (h : QueuedMessage.lt a b = true) : QueuedMessage.lt b a = false := by
  rw [qmLt_iff] at h
  rw [qmLt_eq_false_iff]
  rcases h with h | ⟨heq, hlt⟩
  · exact Or.inl h
  · exact Or.inr ⟨heq, le_of_lt hlt⟩

theorem qmLt_negtrans (a b c : QueuedMessage)
    (hab : QueuedMessage.lt a b = false) (hbc : QueuedMessage.lt b c = false) :
    QueuedMessage.lt a c = false := by
  rw [qmLt_eq_false_iff] at hab hbc ⊢
  rcases hab with h1 | ⟨h1, h1'⟩ <;> rcases hbc with h2 | ⟨h2, h2'⟩
  · exact Or.inl (h2.trans h1)
  · exact Or.inl (h2 ▸ h1)
  · exact Or.inl (h1 ▸ h2)
  · exact Or.inr ⟨h2.trans h1, h2'.trans h1'⟩

theorem qrLt_iff (a b : QueuedRequest) :
    QueuedRequest.lt a b = true ↔
      a.priority < b.priority ∨
        (a.priority = b.priority ∧ a.scheduled_time < b.scheduled_time) := by
  unfold QueuedRequest.lt
  by_cases hp : a.priority = b.priority <;> simp [hp] <;> omega

theorem qrLt_eq_false_iff (a b : QueuedRequest) :
    QueuedRequest.lt a b = false ↔
      b.priority < a.priority ∨
        (b.priority = a.priority ∧ b.scheduled_time ≤ a.scheduled_time) := by
  rw [← Bool.not_eq_true, qrLt_iff]
  constructor
  · intro h
    rcases Nat.lt_trichotomy a.priority b.priority with hlt | heq | hgt
    · exact absurd (Or.inl hlt) h
    · exact Or.inr ⟨heq.symm, le_of_not_lt fun hs => h (Or.inr ⟨heq, hs⟩)⟩
    · exact Or.inl hgt
  · rintro (h | ⟨h, h'⟩) <;> rintro (h2 | ⟨h2, h3⟩)
    · omega
    · omega
    · omega
    · exact absurd h3 (not_lt.mpr h')

theorem qrLt_asymm (a b : QueuedRequest)
    (h : QueuedRequest.lt a b = true) : QueuedRequest.lt b a = false := by
  rw [qrLt_iff] at h
  rw [qrLt_eq_false_iff]
  rcases h with h | ⟨heq, hlt⟩
  · exact Or.inl h
  · exact Or.inr ⟨heq, le_of_lt hlt⟩

theorem qrLt_negtrans (a b c : QueuedRequest)
    (hab : QueuedRequest.lt a b = false) (hbc : QueuedRequest.lt b c = false) :
    QueuedRequest.lt a c = false := by
  rw [qrLt_eq_false_iff] at hab hbc ⊢
  rcases hab with h1 | ⟨h1, h1'⟩ <;> rcases hbc with h2 | ⟨h2, h2'⟩
  · exact Or.inl (h2.trans h1)
  · exact Or.inl (h2 ▸ h1)
  · exact Or.inl (h1 ▸ h2)
  · exact Or.inr ⟨h2.trans h1, h2'.trans h1'⟩

/-! ## Claim C1 -/

/-- C1: `QueuedMessage.__lt__` / `QueuedRequest.__lt__` order first by
`priority` (lower numeric value first) and, on equal priorities, by
earlier `scheduled_time`; consequently, for every sequence of enqueues
(any list of queued items) the items are dequeued in non-decreasing
`(priority, scheduled_at)` order. -/
theorem delivery_queue_ordering :
    (∀ a b : QueuedMessage,
      QueuedMessage.lt a b = true ↔
        a.priority < b.priority ∨
          (a.priority = b.priority ∧ a.scheduled_time < b.scheduled_time)) ∧
    (∀ a b : QueuedRequest,
      QueuedRequest.lt a b = true ↔
        a.priority < b.priority ∨
          (a.priority = b.priority ∧ a.scheduled_time < b.scheduled_time)) ∧
    (∀ l : List QueuedMessage,
      List.Chain'
        (fun a b => a.priority < b.priority ∨
          (a.priority = b.priority ∧ a.scheduled_time ≤ b.scheduled_time))
        (drain QueuedMessage.lt l)) ∧
    (∀ l : List QueuedRequest,
      List.Chain'
        (fun a b => a.priority < b.priority ∨
          (a.priority = b.priority ∧ a.scheduled_time ≤ b.scheduled_time))
        (drain QueuedRequest.lt l)) := by
  refine ⟨qmLt_iff, qrLt_iff, ?_, ?_⟩
  · intro l
    have h := drain_chain QueuedMessage.lt qmLt_asymm
      qmLt_negtrans l
    exact h.imp fun a b hab => (qmLt_eq_false_iff b a).mp hab
  · intro l
    have h := drain_chain QueuedRequest.lt qrLt_asymm
      qrLt_negtrans l
    exact h.imp fun a b hab => (qrLt_eq_false_iff b a).mp hab

/-! ## Helper lemmas about `processStep` -/

theorem processStep_empty (st : MessageQueue) (t0 t1 t2 : ℚ) (tr : Transport)
    (h : st.queue = []) :
    MessageQueue.processStep st t0 t1 t2 tr = (st, .idleEmpty) := by
  unfold MessageQueue.processStep
  rw [h]
  rfl

/-- The full dequeue-and-send case of one loop iteration: with the queue
non-empty, the rate-limit window elapsed and the head item due, the item
is removed, sent, `last_send_time` is set to `t1`, and on failure with
retries left the item is re-inserted with `retry_count + 1` and
`scheduled_time = t2 + 2`. -/
theorem processStep_send (st : MessageQueue) (t0 t1 t2 : ℚ) (tr : Transport)
    (m : QueuedMessage) (rest : List QueuedMessage)
    (hpop : popMin QueuedMessage.lt st.queue = some (m, rest))
    (hrate : ¬ (t0 - st.last_send_time < st.rate_limit))
    (hdue : ¬ (m.scheduled_time > t0)) :
    MessageQueue.processStep st t0 t1 t2 tr =
      if ¬ (MessageQueue.sendMessage tr m).1 ∧ m.retry_count < m.max_retries then
        ({ st with
            queue := rest ++ [{ m with retry_count := m.retry_count + 1,
                                       scheduled_time := t2 + 2 }],
            last_send_time := t1 },
         .attempt m (MessageQueue.sendMessage tr m).1 true)
      else
        ({ st with queue := rest, last_send_time := t1 },
         .attempt m (MessageQueue.sendMessage tr m).1 false) := by
  simp only [MessageQueue.processStep, hpop]
  rw [if_neg hrate, if_neg hdue]

/-- Inversion: an `attempt` event means the queue was non-empty, the
rate-limit guard passed, the item was due, the reported `success` is the
`_send_message` result, and the new state is the send/retry state. -/
theorem processStep_attempt_inv (st : MessageQueue) (t0 t1 t2 : ℚ)
    (tr : Transport) (m : QueuedMessage) (s r : Bool)
    (h : (MessageQueue.processStep st t0 t1 t2 tr).2 = .attempt m s r) :
    ∃ rest, popMin QueuedMessage.lt st.queue = some (m, rest) ∧
      st.rate_limit ≤ t0 - st.last_send_time ∧
      m.scheduled_time ≤ t0 ∧
      s = (MessageQueue.sendMessage tr m).1 ∧
      ((s = false ∧ m.retry_count < m.max_retries ∧ r = true ∧
        (MessageQueue.processStep st t0 t1 t2 tr).1 =
          { st with
              queue := rest ++ [{ m with retry_count := m.retry_count + 1,
                                         scheduled_time := t2 + 2 }],
              last_send_time := t1 }) ∨
       (¬ (s = false ∧ m.retry_count < m.max_retries) ∧ r = false ∧
        (MessageQueue.processStep st t0 t1 t2 tr).1 =
          { st with queue := rest, last_send_time := t1 })) := by
  cases hpop : popMin QueuedMessage.lt st.queue with
  | none =>
    simp only [MessageQueue.processStep, hpop] at h
    exact absurd h (by simp)
  | some p =>
    obtain ⟨m', rest⟩ := p
    by_cases hrate : t0 - st.last_send_time < st.rate_limit
    · simp only [MessageQueue.processStep, hpop, if_pos hrate] at h
      exact absurd h (by simp)
    · by_cases hdue : m'.scheduled_time > t0
      · simp only [MessageQueue.processStep, hpop, if_neg hrate, if_pos hdue] at h
        exact absurd h (by simp)
      · have hsend := processStep_send st t0 t1 t2 tr m' rest hpop hrate hdue
        by_cases hfail :
            ¬ (MessageQueue.sendMessage tr m').1 ∧ m'.retry_count < m'.max_retries
        · rw [if_pos hfail] at hsend
          rw [hsend] at h
          obtain ⟨rfl, hs, hr⟩ := StepEvent.attempt.inj h.symm
          refine ⟨rest, rfl, le_of_not_lt hrate, le_of_not_lt hdue, hs,
            Or.inl ⟨?_, hfail.2, hr, ?_⟩⟩
          · rw [hs]; simpa using hfail.1
          · rw [hsend]
        · rw [if_neg hfail] at hsend
          rw [hsend] at h
          obtain ⟨rfl, hs, hr⟩ := StepEvent.attempt.inj h.symm
          refine ⟨rest, rfl, le_of_not_lt hrate, le_of_not_lt hdue, hs,
            Or.inr ⟨?_, hr, ?_⟩⟩
          · rw [hs]
            intro hcon
            exact hfail ⟨by simpa using hcon.1, hcon.2⟩
          · rw [hsend]

/-- Dequeue-and-process case of one `RequestQueue._process_queue`
iteration (textually the same loop as the message queue's). -/
theorem requestStep_send (st : RequestQueue) (t0 t1 t2 : ℚ)
    (pr : QueuedRequest → Bool) (m : QueuedRequest) (rest : List QueuedRequest)
    (hpop : popMin QueuedRequest.lt st.queue = some (m, rest))
    (hrate : ¬ (t0 - st.last_process_time < st.rate_limit))
    (hdue : ¬ (m.scheduled_time > t0)) :
    RequestQueue.processStep st t0 t1 t2 pr =
      if ¬ pr m ∧ m.retry_count < m.max_retries then
        ({ st with
            queue := rest ++ [{ m with retry_count := m.retry_count + 1,
                                       scheduled_time := t2 + 2 }],
            last_process_time := t1 },
         .attempt m (pr m) true)
      else
        ({ st with queue := rest, last_process_time := t1 },
         .attempt m (pr m) false) := by
  simp only [RequestQueue.processStep, hpop]
  rw [if_neg hrate, if_neg hdue]

/-! ## Claim C2 -/

/-- C2: in both delivery loops, a failed attempt on an item with
`retry_count < max_retries` increments `retry_count`, resets
`scheduled_time` to the current time plus the fixed 2-second backoff and
re-inserts the item; an item out of retries is dropped (removed from the
queue, not re-inserted). -/
theorem failure_retry_backoff :
    (∀ (st : MessageQueue) (t0 t1 t2 : ℚ) (tr : Transport)
       (m : QueuedMessage) (rest : List QueuedMessage),
      popMin QueuedMessage.lt st.queue = some (m, rest) →
      ¬ (t0 - st.last_send_time < st.rate_limit) →
      ¬ (m.scheduled_time > t0) →
      (MessageQueue.sendMessage tr m).1 = false →
      MessageQueue.processStep st t0 t1 t2 tr =
        if m.retry_count < m.max_retries then
          ({ st with
              queue := rest ++ [{ m with retry_count := m.retry_count + 1,
                                         scheduled_time := t2 + 2 }],
              last_send_time := t1 },
           .attempt m false true)
        else
          ({ st with queue := rest, last_send_time := t1 },
           .attempt m false false)) ∧
    (∀ (st : RequestQueue) (t0 t1 t2 : ℚ) (pr : QueuedRequest → Bool)
       (m : QueuedRequest) (rest : List QueuedRequest),
      popMin QueuedRequest.lt st.queue = some (m, rest) →
      ¬ (t0 - st.last_process_time < st.rate_limit) →
      ¬ (m.scheduled_time > t0) →
      pr m = false →
      RequestQueue.processStep st t0 t1 t2 pr =
        if m.retry_count < m.max_retries then
          ({ st with
              queue := rest ++ [{ m with retry_count := m.retry_count + 1,
                                         scheduled_time := t2 + 2 }],
              last_process_time := t1 },
           .attempt m false true)
        else
          ({ st with queue := rest, last_process_time := t1 },
           .attempt m false false)) := by
  constructor
  · intro st t0 t1 t2 tr m rest hpop hrate hdue hfailed
    rw [processStep_send st t0 t1 t2 tr m rest hpop hrate hdue]
    rw [hfailed]
    by_cases hretry : m.retry_count < m.max_retries
    · rw [if_pos (by simp [hretry]), if_pos hretry]
    · rw [if_neg (by simp [hretry]), if_neg hretry]
  · intro st t0 t1 t2 pr m rest hpop hrate hdue hfailed
    rw [requestStep_send st t0 t1 t2 pr m rest hpop hrate hdue]
    rw [hfailed]
    by_cases hretry : m.retry_count < m.max_retries
    · rw [if_pos (by simp [hretry]), if_pos hretry]
    · rw [if_neg (by simp [hretry]), if_neg hretry]

/-! ## Concrete fixtures used by scenario conjuncts and witnesses -/

/-- A transport whose every call raises / returns a falsy response. -/
def failTransport : Transport :=
  { post_group_msg := fun _ _ => none, post_private_msg := fun _ _ => none }

/-- A transport whose every call returns `{"status": "ok"}`. -/
def okTransport : Transport :=
  { post_group_msg := fun _ _ => some "ok",
    post_private_msg := fun _ _ => some "ok" }

/-- A group message created at time 0 with `max_retries = 2`. -/
def demoMessage : QueuedMessage :=
  QueuedMessage.make 0 "hello" 42 "group" 1 0 2 0

/-- A queue holding only `demoMessage`, `rate_limit = 1`. -/
def demoQueue : MessageQueue :=
  { queue := [demoMessage], rate_limit := 1, random_delay := false,
    last_send_time := 0, running := true }

/-- `demoMessage` after one failed attempt at time 10 (backoff to 12). -/
def demoMessage1 : QueuedMessage :=
  { demoMessage with retry_count := 1, scheduled_time := 12 }

/-- `demoMessage` after two failed attempts, the second at time 20. -/
def demoMessage2 : QueuedMessage :=
  { demoMessage with retry_count := 2, scheduled_time := 22 }

/-- `demoQueue` after a first failed attempt at time 10. -/
def demoQueue1 : MessageQueue :=
  { demoQueue with queue := [demoMessage1], last_send_time := 10 }

/-- `demoQueue` after a second failed attempt at time 20. -/
def demoQueue2 : MessageQueue :=
  { demoQueue with queue := [demoMessage2], last_send_time := 20 }

/-- `demoQueue` after the third failed attempt at time 30: the item is
out of retries and dropped. -/
def demoQueue3 : MessageQueue :=
  { demoQueue with queue := [], last_send_time := 30 }

/-- A message whose `message_type` is neither `"group"` nor `"private"`,
with `max_retries = 1`. -/
def badTypeMessage : QueuedMessage :=
  QueuedMessage.make 0 "hello" 42 "channel" 1 0 1 0

/-- A queue holding only `badTypeMessage`. -/
def badTypeQueue : MessageQueue :=
  { queue := [badTypeMessage], rate_limit := 1, random_delay := false,
    last_send_time := 0, running := true }

/-- `badTypeMessage` after one failed attempt at time 10. -/
def badTypeMessage1 : QueuedMessage :=
  { badTypeMessage with retry_count := 1, scheduled_time := 12 }

/-- `badTypeQueue` after a first failed attempt at time 10. -/
def badTypeQueue1 : MessageQueue :=
  { badTypeQueue with queue := [badTypeMessage1], last_send_time := 10 }

/-- `badTypeQueue` after the second failed attempt at time 20: dropped. -/
def badTypeQueue2 : MessageQueue :=
  { badTypeQueue with queue := [], last_send_time := 20 }

/-! ### Step equations for the always-failing demo scenario -/

theorem demo_step1 :
    MessageQueue.processStep demoQueue 10 10 10 failTransport =
      (demoQueue1, .attempt demoMessage false true) := by
  rw [processStep_send demoQueue 10 10 10 failTransport demoMessage [] rfl
    (by norm_num [demoQueue]) (by norm_num [demoMessage, QueuedMessage.make]),
    if_pos (by decide)]
  norm_num [demoQueue1, demoQueue, demoMessage1, demoMessage,
    QueuedMessage.make, MessageQueue.sendMessage, failTransport]

theorem demo_step2 :
    MessageQueue.processStep demoQueue1 20 20 20 failTransport =
      (demoQueue2, .attempt demoMessage1 false true) := by
  rw [processStep_send demoQueue1 20 20 20 failTransport demoMessage1 [] rfl
    (by norm_num [demoQueue1, demoQueue])
    (by norm_num [demoMessage1, demoMessage, QueuedMessage.make]),
    if_pos (by decide)]
  norm_num [demoQueue2, demoQueue1, demoQueue, demoMessage2, demoMessage1,
    demoMessage, QueuedMessage.make, MessageQueue.sendMessage, failTransport]

theorem demo_step3 :
    MessageQueue.processStep demoQueue2 30 30 30 failTransport =
      (demoQueue3, .attempt demoMessage2 false false) := by
  rw [processStep_send demoQueue2 30 30 30 failTransport demoMessage2 [] rfl
    (by norm_num [demoQueue2, demoQueue])
    (by norm_num [demoMessage2, demoMessage, QueuedMessage.make]),
    if_neg (by decide)]
  norm_num [demoQueue3, demoQueue2, demoQueue, demoMessage2, demoMessage,
    QueuedMessage.make, MessageQueue.sendMessage, failTransport]

/-- The whole always-failing run: three attempts, then the queue is empty. -/
theorem demo_run :
    MessageQueue.run demoQueue failTransport
        [(10, 10, 10), (20, 20, 20), (30, 30, 30)] =
      (demoQueue3,
       [.attempt demoMessage false true,
        .attempt demoMessage1 false true,
        .attempt demoMessage2 false false]) := by
  simp [MessageQueue.run, demo_step1, demo_step2, demo_step3]

/-! ## Claim C5 -/

/-- C5: `retry_count ≤ max_retries` is preserved by every loop iteration;
an item whose `retry_count` equals `max_retries` and whose delivery fails
again is removed and not re-inserted; with an always-failing transport
and `max_retries = 2` the item undergoes exactly 3 attempts and is then
gone, and a step on an empty queue makes no attempt. -/
theorem retry_count_ceiling :
    (∀ (st : MessageQueue) (t0 t1 t2 : ℚ) (tr : Transport),
      (∀ x ∈ st.queue, x.retry_count ≤ x.max_retries) →
      ∀ x ∈ (MessageQueue.processStep st t0 t1 t2 tr).1.queue,
        x.retry_count ≤ x.max_retries) ∧
    (∀ (st : MessageQueue) (t0 t1 t2 : ℚ) (tr : Transport)
       (m : QueuedMessage) (rest : List QueuedMessage),
      popMin QueuedMessage.lt st.queue = some (m, rest) →
      ¬ (t0 - st.last_send_time < st.rate_limit) →
      ¬ (m.scheduled_time > t0) →
      (MessageQueue.sendMessage tr m).1 = false →
      m.retry_count = m.max_retries →
      (MessageQueue.processStep st t0 t1 t2 tr).1.queue = rest ∧
      (MessageQueue.processStep st t0 t1 t2 tr).2 = .attempt m false false) ∧
    (demoMessage.max_retries = 2 ∧
      countAttempts (MessageQueue.run demoQueue failTransport
        [(10, 10, 10), (20, 20, 20), (30, 30, 30)]).2 = 3 ∧
      (MessageQueue.run demoQueue failTransport
        [(10, 10, 10), (20, 20, 20), (30, 30, 30)]).1.queue = []) ∧
    (∀ (st : MessageQueue) (t0 t1 t2 : ℚ) (tr : Transport),
      st.queue = [] →
      MessageQueue.processStep st t0 t1 t2 tr = (st, .idleEmpty)) := by
  refine ⟨?_, ?_, ⟨rfl, by rw [demo_run]; rfl, by rw [demo_run]; rfl⟩,
    processStep_empty⟩
  · intro st t0 t1 t2 tr hinv x hx
    cases hpop : popMin QueuedMessage.lt st.queue with
    | none =>
      simp only [MessageQueue.processStep, hpop] at hx
      exact hinv x hx
    | some p =>
      obtain ⟨m, rest⟩ := p
      have hmem : ∀ y ∈ rest, y ∈ st.queue := by
        intro y hy
        exact (popMin_perm _ _ _ _ hpop).mem_iff.mpr (List.mem_cons_of_mem _ hy)
      have hm : m ∈ st.queue :=
        (popMin_perm _ _ _ _ hpop).mem_iff.mpr (List.mem_cons_self _ _)
      by_cases hrate : t0 - st.last_send_time < st.rate_limit
      · simp only [MessageQueue.processStep, hpop, if_pos hrate] at hx
        exact hinv x hx
      · by_cases hdue : m.scheduled_time > t0
        · simp only [MessageQueue.processStep, hpop, if_neg hrate,
            if_pos hdue] at hx
          exact hinv x hx
        · rw [processStep_send st t0 t1 t2 tr m rest hpop hrate hdue] at hx
          by_cases hfail :
              ¬ (MessageQueue.sendMessage tr m).1 ∧ m.retry_count < m.max_retries
          · rw [if_pos hfail] at hx
            simp only [List.mem_append, List.mem_singleton] at hx
            rcases hx with hx | rfl
            · exact hinv x (hmem x hx)
            · simpa using hfail.2
          · rw [if_neg hfail] at hx
            exact hinv x (hmem x hx)
  · intro st t0 t1 t2 tr m rest hpop hrate hdue hfailed hceil
    have hnr : ¬ (¬ (MessageQueue.sendMessage tr m).1 ∧
        m.retry_count < m.max_retries) := by
      rintro ⟨-, hlt⟩
      omega
    rw [processStep_send st t0 t1 t2 tr m rest hpop hrate hdue, if_neg hnr]
    exact ⟨rfl, by rw [hfailed]⟩

/-- Witness for `retry_count_ceiling` at a concrete queue and step. -/
theorem retry_count_ceiling_witness :
    (∀ x ∈ demoQueue.queue, x.retry_count ≤ x.max_retries) ∧
    ∀ x ∈ (MessageQueue.processStep demoQueue 10 10 10 failTransport).1.queue,
      x.retry_count ≤ x.max_retries :=
  ⟨by decide, retry_count_ceiling.1 demoQueue 10 10 10 failTransport (by decide)⟩

/-! ## Claim C7 -/

/-- C7: a dequeue-and-send step is taken only when at least `rate_limit`
seconds have elapsed since `last_send_time`; consequently two consecutive
delivery attempts of one queue instance (with the clock not running
backwards across the send, `t0 ≤ t1`) are at least `rate_limit` apart. -/
theorem rate_limit_pacing :
    (∀ (st : MessageQueue) (t0 t1 t2 : ℚ) (tr : Transport)
       (m : QueuedMessage) (s r : Bool),
      (MessageQueue.processStep st t0 t1 t2 tr).2 = .attempt m s r →
      st.rate_limit ≤ t0 - st.last_send_time) ∧
    (∀ (st : MessageQueue) (t0 t1 t2 t0' t1' t2' : ℚ) (tr tr' : Transport)
       (m m' : QueuedMessage) (s s' r r' : Bool),
      (MessageQueue.processStep st t0 t1 t2 tr).2 = .attempt m s r →
      (MessageQueue.processStep (MessageQueue.processStep st t0 t1 t2 tr).1
          t0' t1' t2' tr').2 = .attempt m' s' r' →
      t0 ≤ t1 →
      st.rate_limit ≤ t0' - t0) := by
  constructor
  · intro st t0 t1 t2 tr m s r h
    obtain ⟨rest, -, hrate, -⟩ := processStep_attempt_inv st t0 t1 t2 tr m s r h
    exact hrate
  · intro st t0 t1 t2 t0' t1' t2' tr tr' m m' s s' r r' h1 h2 hmono
    obtain ⟨rest, -, -, -, -, hcase⟩ :=
      processStep_attempt_inv st t0 t1 t2 tr m s r h1
    obtain ⟨rest', -, hrate', -⟩ :=
      processStep_attempt_inv _ t0' t1' t2' tr' m' s' r' h2
    have hfields : (MessageQueue.processStep st t0 t1 t2 tr).1.last_send_time = t1 ∧
        (MessageQueue.processStep st t0 t1 t2 tr).1.rate_limit = st.rate_limit := by
      rcases hcase with ⟨-, -, -, hst⟩ | ⟨-, -, hst⟩ <;> rw [hst] <;>
        exact ⟨rfl, rfl⟩
    rw [hfields.1, hfields.2] at hrate'
    linarith

/-- Witness for `rate_limit_pacing` at a concrete state and step. -/
theorem rate_limit_pacing_witness :
    (MessageQueue.processStep demoQueue 10 10 10 failTransport).2 =
      StepEvent.attempt demoMessage false true ∧
    demoQueue.rate_limit ≤ 10 - demoQueue.last_send_time :=
  ⟨by rw [demo_step1], rate_limit_pacing.1 demoQueue 10 10 10 failTransport
    demoMessage false true (by rw [demo_step1])⟩

/-- Witness for `failure_retry_backoff` at a concrete queue and step. -/
theorem failure_retry_backoff_witness :
    popMin QueuedMessage.lt demoQueue.queue = some (demoMessage, []) ∧
    (MessageQueue.sendMessage failTransport demoMessage).1 = false ∧
    MessageQueue.processStep demoQueue 10 10 10 failTransport =
      (if demoMessage.retry_count < demoMessage.max_retries then
        ({ demoQueue with
            queue := [] ++ [{ demoMessage with
                retry_count := demoMessage.retry_count + 1,
                scheduled_time := (10 : ℚ) + 2 }],
            last_send_time := 10 },
         .attempt demoMessage false true)
      else
        ({ demoQueue with queue := [], last_send_time := 10 },
         .attempt demoMessage false false)) :=
  ⟨rfl, rfl,
    failure_retry_backoff.1 demoQueue 10 10 10 failTransport demoMessage []
      rfl (by norm_num [demoQueue])
      (by norm_num [demoMessage, QueuedMessage.make]) rfl⟩

/-! ## Claim C8 -/

/-- C8 counterexample: at a concrete state a delivery attempt fails, yet
`last_send_time` changes from 0 to 10 — the loop records
`last_send_time = time.time()` after every attempt, not only after
successful ones. -/
theorem failed_attempt_changes_last_send_time :
    (MessageQueue.processStep demoQueue 10 10 10 failTransport).2 =
      StepEvent.attempt demoMessage false true ∧
    (MessageQueue.sendMessage failTransport demoMessage).1 = false ∧
    demoQueue.last_send_time = 0 ∧
    (MessageQueue.processStep demoQueue 10 10 10 failTransport).1.last_send_time
      = 10 ∧
    (10 : ℚ) ≠ 0 :=
  ⟨by rw [demo_step1], rfl, rfl, by rw [demo_step1]; rfl, by norm_num⟩

/-- C8 (amended): every delivery attempt — successful or failed — sets
`last_send_time` to the post-send clock reading `t1`; beyond that the
failure path modifies only the dequeued item's `retry_count` and
`scheduled_time` and the queue contents, leaving `rate_limit`,
`random_delay` and `running` unchanged. -/
theorem attempt_always_updates_last_send_time :
    ∀ (st : MessageQueue) (t0 t1 t2 : ℚ) (tr : Transport)
      (m : QueuedMessage) (s r : Bool),
      (MessageQueue.processStep st t0 t1 t2 tr).2 = .attempt m s r →
      (MessageQueue.processStep st t0 t1 t2 tr).1.last_send_time = t1 ∧
      (MessageQueue.processStep st t0 t1 t2 tr).1.rate_limit = st.rate_limit ∧
      (MessageQueue.processStep st t0 t1 t2 tr).1.random_delay =
        st.random_delay ∧
      (MessageQueue.processStep st t0 t1 t2 tr).1.running = st.running ∧
      (s = false → m.retry_count < m.max_retries →
        ∃ rest, popMin QueuedMessage.lt st.queue = some (m, rest) ∧
          (MessageQueue.processStep st t0 t1 t2 tr).1.queue =
            rest ++ [{ m with retry_count := m.retry_count + 1,
                              scheduled_time := t2 + 2 }]) := by
  intro st t0 t1 t2 tr m s r h
  obtain ⟨rest, hpop, -, -, -, hcase⟩ :=
    processStep_attempt_inv st t0 t1 t2 tr m s r h
  rcases hcase with ⟨hs, hlt, -, hst⟩ | ⟨hn, -, hst⟩
  · rw [hst]
    exact ⟨rfl, rfl, rfl, rfl, fun _ _ => ⟨rest, hpop, rfl⟩⟩
  · rw [hst]
    exact ⟨rfl, rfl, rfl, rfl, fun hs hlt => absurd ⟨hs, hlt⟩ hn⟩

/-- Witness for `attempt_always_updates_last_send_time` at a concrete
failing step. -/
theorem attempt_always_updates_last_send_time_witness :
    (MessageQueue.processStep demoQueue 10 10 10 failTransport).2 =
      StepEvent.attempt demoMessage false true ∧
    (MessageQueue.processStep demoQueue 10 10 10 failTransport).1.last_send_time
      = 10 ∧
    (MessageQueue.processStep demoQueue 10 10 10 failTransport).1.rate_limit =
      demoQueue.rate_limit ∧
    (MessageQueue.processStep demoQueue 10 10 10
        failTransport).1.random_delay = demoQueue.random_delay ∧
    (MessageQueue.processStep demoQueue 10 10 10 failTransport).1.running =
      demoQueue.running ∧
    (false = false → demoMessage.retry_count < demoMessage.max_retries →
      ∃ rest, popMin QueuedMessage.lt demoQueue.queue = some (demoMessage, rest) ∧
        (MessageQueue.processStep demoQueue 10 10 10 failTransport).1.queue =
          rest ++ [{ demoMessage with
              retry_count := demoMessage.retry_count + 1,
              scheduled_time := (10 : ℚ) + 2 }]) :=
  ⟨by rw [demo_step1],
   attempt_always_updates_last_send_time demoQueue 10 10 10 failTransport
     demoMessage false true (by rw [demo_step1])⟩

/-! ## Claim C9 -/

/-- C9: `MessageQueue.put` never blocks and never fails on a full queue:
for every state and arguments it returns `True` and the new state is the
old one with the constructed item (with the `__init__` defaults
`retry_count = 0`, `max_retries = 3`) inserted; the unbounded
`PriorityQueue` makes the `except`-branch returning `False` unreachable
in the embedding. -/
theorem enqueue_never_blocks_never_full :
    ∀ (st : MessageQueue) (now : ℚ) (message : String) (target_id : Nat)
      (message_type : String) (priority : Nat) (delay : ℚ),
      (MessageQueue.put st now message target_id message_type priority
        delay).2 = true ∧
      (MessageQueue.put st now message target_id message_type priority
        delay).1 =
        { st with queue := st.queue ++
            [QueuedMessage.make now message target_id message_type priority
              0 3 delay] } :=
  fun _ _ _ _ _ _ _ => ⟨rfl, rfl⟩

/-! ## Claim C10 -/

theorem badType_step1 :
    MessageQueue.processStep badTypeQueue 10 10 10 okTransport =
      (badTypeQueue1, .attempt badTypeMessage false true) := by
  rw [processStep_send badTypeQueue 10 10 10 okTransport badTypeMessage [] rfl
    (by norm_num [badTypeQueue])
    (by norm_num [badTypeMessage, QueuedMessage.make]),
    if_pos (by decide)]
  norm_num [badTypeQueue1, badTypeQueue, badTypeMessage1, badTypeMessage,
    QueuedMessage.make, MessageQueue.sendMessage, okTransport]
  decide

theorem badType_step2 :
    MessageQueue.processStep badTypeQueue1 20 20 20 okTransport =
      (badTypeQueue2, .attempt badTypeMessage1 false false) := by
  rw [processStep_send badTypeQueue1 20 20 20 okTransport badTypeMessage1 []
    rfl (by norm_num [badTypeQueue1, badTypeQueue])
    (by norm_num [badTypeMessage1, badTypeMessage, QueuedMessage.make]),
    if_neg (by decide)]
  norm_num [badTypeQueue2, badTypeQueue1, badTypeQueue, badTypeMessage1,
    badTypeMessage, QueuedMessage.make, MessageQueue.sendMessage, okTransport]
  decide

/-- The unknown-type run against a transport that would succeed: the item
is retried and dropped, never delivered. -/
theorem badType_run :
    MessageQueue.run badTypeQueue okTransport [(10, 10, 10), (20, 20, 20)] =
      (badTypeQueue2,
       [.attempt badTypeMessage false true,
        .attempt badTypeMessage1 false false]) := by
  simp [MessageQueue.run, badType_step1, badType_step2]

/-- C10: a message whose `message_type` is neither `"group"` nor
`"private"` makes `_send_message` return `False` without any transport
call; the loop therefore treats it exactly like a transient failure —
re-enqueued with the 2-second backoff while retries remain, then dropped
— and it is never delivered (every attempt reports `success = false`,
even against a transport that always answers ok). -/
theorem unknown_message_type_never_delivered :
    (∀ (tr : Transport) (m : QueuedMessage),
      m.message_type ≠ "group" → m.message_type ≠ "private" →
      MessageQueue.sendMessage tr m = (false, false)) ∧
    (∀ (st : MessageQueue) (t0 t1 t2 : ℚ) (tr : Transport)
       (m : QueuedMessage) (s r : Bool),
      (MessageQueue.processStep st t0 t1 t2 tr).2 = .attempt m s r →
      m.message_type ≠ "group" → m.message_type ≠ "private" → s = false) ∧
    (∀ (st : MessageQueue) (t0 t1 t2 : ℚ) (tr : Transport)
       (m : QueuedMessage) (rest : List QueuedMessage),
      popMin QueuedMessage.lt st.queue = some (m, rest) →
      ¬ (t0 - st.last_send_time < st.rate_limit) →
      ¬ (m.scheduled_time > t0) →
      m.message_type ≠ "group" → m.message_type ≠ "private" →
      MessageQueue.processStep st t0 t1 t2 tr =
        if m.retry_count < m.max_retries then
          ({ st with
              queue := rest ++ [{ m with retry_count := m.retry_count + 1,
                                         scheduled_time := t2 + 2 }],
              last_send_time := t1 },
           .attempt m false true)
        else
          ({ st with queue := rest, last_send_time := t1 },
           .attempt m false false)) ∧
    (badTypeMessage.message_type = "channel" ∧
      MessageQueue.run badTypeQueue okTransport [(10, 10, 10), (20, 20, 20)] =
        (badTypeQueue2,
         [.attempt badTypeMessage false true,
          .attempt badTypeMessage1 false false]) ∧
      badTypeQueue2.queue = []) := by
  have hsend : ∀ (tr : Transport) (m : QueuedMessage),
      m.message_type ≠ "group" → m.message_type ≠ "private" →
      MessageQueue.sendMessage tr m = (false, false) := by
    intro tr m hg hp
    unfold MessageQueue.sendMessage
    rw [if_neg hg, if_neg hp]
  refine ⟨hsend, ?_, ?_, rfl, badType_run, rfl⟩
  · intro st t0 t1 t2 tr m s r h hg hp
    obtain ⟨rest, -, -, -, hs, -⟩ :=
      processStep_attempt_inv st t0 t1 t2 tr m s r h
    rw [hs, hsend tr m hg hp]
  · intro st t0 t1 t2 tr m rest hpop hrate hdue hg hp
    rw [processStep_send st t0 t1 t2 tr m rest hpop hrate hdue,
      hsend tr m hg hp]
    by_cases hretry : m.retry_count < m.max_retries
    · rw [if_pos (by simp [hretry]), if_pos hretry]
    · rw [if_neg (by simp [hretry]), if_neg hretry]

/-- Witness for `unknown_message_type_never_delivered` at the concrete
unknown-type message. -/
theorem unknown_message_type_never_delivered_witness :
    badTypeMessage.message_type ≠ "group" ∧
    badTypeMessage.message_type ≠ "private" ∧
    MessageQueue.sendMessage okTransport badTypeMessage = (false, false) :=
  ⟨by decide, by decide,
    unknown_message_type_never_delivered.1 okTransport badTypeMessage
      (by decide) (by decide)⟩

/-! ## Helper lemmas about `markFirstIdle` -/

theorem markFirstIdle_none_iff (l : List PoolConn) :
    markFirstIdle l = none ↔ ∀ c ∈ l, c.in_use = true := by
  induction l with
  | nil => simp [markFirstIdle]
  | cons c cs ih =>
    by_cases hc : c.in_use
    · cases hmi : markFirstIdle cs with
      | none =>
        simp only [markFirstIdle, if_pos hc, hmi]
        constructor
        · intro _
          exact List.forall_mem_cons.mpr ⟨hc, ih.mp hmi⟩
        · intro _
          trivial
      | some p =>
        obtain ⟨m, cs'⟩ := p
        simp only [markFirstIdle, if_pos hc, hmi]
        constructor
        · intro h; simp at h
        · rintro hall
          exact absurd ((ih.mpr fun x hx =>
            hall x (List.mem_cons_of_mem c hx)).symm.trans hmi) (by simp)
    · simp only [markFirstIdle, if_neg hc]
      constructor
      · intro h; simp at h
      · intro hall
        exact absurd (hall c (List.mem_cons_self c cs)) hc

theorem markFirstIdle_in_use (l : List PoolConn) (c : PoolConn)
    (cs : List PoolConn) (h : markFirstIdle l = some (c, cs)) :
    c.in_use = true := by
  induction l generalizing c cs with
  | nil => simp [markFirstIdle] at h
  | cons a rest ih =>
    by_cases ha : a.in_use
    · simp only [markFirstIdle, if_pos ha] at h
      cases hmi : markFirstIdle rest with
      | none => rw [hmi] at h; simp at h
      | some p =>
        obtain ⟨m, cs'⟩ := p
        rw [hmi] at h
        simp at h
        obtain ⟨rfl, -⟩ := h
        exact ih _ _ hmi
    · simp only [markFirstIdle, if_neg ha] at h
      simp at h
      obtain ⟨rfl, -⟩ := h
      rfl

theorem markFirstIdle_length (l : List PoolConn) (c : PoolConn)
    (cs : List PoolConn) (h : markFirstIdle l = some (c, cs)) :
    cs.length = l.length := by
  induction l generalizing c cs with
  | nil => simp [markFirstIdle] at h
  | cons a rest ih =>
    by_cases ha : a.in_use
    · simp only [markFirstIdle, if_pos ha] at h
      cases hmi : markFirstIdle rest with
      | none => rw [hmi] at h; simp at h
      | some p =>
        obtain ⟨m, cs'⟩ := p
        rw [hmi] at h
        simp at h
        obtain ⟨-, rfl⟩ := h
        simp [ih _ _ hmi]
    · simp only [markFirstIdle, if_neg ha] at h
      simp at h
      obtain ⟨-, rfl⟩ := h
      simp

theorem acquirePoll_timeout (obs : List ConnectionPool) :
    ∀ prev : ConnectionPool,
      (∀ s ∈ obs, markFirstIdle s.connections = none) →
      ∃ n, acquirePoll prev obs = .timeoutError n := by
  induction obs with
  | nil => intro prev _; exact ⟨prev.connection_count, rfl⟩
  | cons s rest ih =>
    intro prev hall
    have hs : markFirstIdle s.connections = none := hall s (by simp)
    simp only [acquirePoll, hs]
    exact ih s fun x hx => hall x (by simp [hx])

/-! ## Claim C3 -/

/-- C3: `acquire` returns the first idle connection (marked `in_use`) if
one exists; otherwise, below `max_connections`, it creates a fresh
connection marked `in_use` and appends it; otherwise it enters the
out-of-lock poll loop, taking an idle connection from the first poll that
observes one and raising the timeout error (the only error constructor an
acquisition can produce) when no poll before the timeout observes an idle
connection. -/
theorem pool_acquire_contract :
    (∀ l : List PoolConn, markFirstIdle l = none ↔ ∀ c ∈ l, c.in_use = true) ∧
    (∀ (st : ConnectionPool) (now : ℚ) (obs : List ConnectionPool)
       (c : PoolConn) (cs : List PoolConn),
      markFirstIdle st.connections = some (c, cs) →
      c.in_use = true ∧
      ConnectionPool.acquire st now obs = .ok c { st with connections := cs }) ∧
    (∀ (st : ConnectionPool) (now : ℚ) (obs : List ConnectionPool),
      (∀ c ∈ st.connections, c.in_use = true) →
      st.connection_count < st.max_connections →
      ConnectionPool.acquire st now obs =
        .ok { id := st.next_id, in_use := true, last_used := now }
          { st with
              connections := st.connections ++
                [{ id := st.next_id, in_use := true, last_used := now }],
              connection_count := st.connection_count + 1,
              next_id := st.next_id + 1 }) ∧
    (∀ prev : ConnectionPool,
      acquirePoll prev [] = .timeoutError prev.connection_count) ∧
    (∀ (prev s : ConnectionPool) (rest : List ConnectionPool)
       (c : PoolConn) (cs : List PoolConn),
      markFirstIdle s.connections = some (c, cs) →
      acquirePoll prev (s :: rest) = .ok c { s with connections := cs }) ∧
    (∀ (prev s : ConnectionPool) (rest : List ConnectionPool),
      markFirstIdle s.connections = none →
      acquirePoll prev (s :: rest) = acquirePoll s rest) ∧
    (∀ (st : ConnectionPool) (now : ℚ) (obs : List ConnectionPool),
      (∀ c ∈ st.connections, c.in_use = true) →
      ¬ st.connection_count < st.max_connections →
      (∀ s ∈ obs, ∀ c ∈ s.connections, c.in_use = true) →
      ∃ n, ConnectionPool.acquire st now obs = .timeoutError n) ∧
    (∀ (st : ConnectionPool) (now : ℚ) (obs : List ConnectionPool),
      (∃ c st', ConnectionPool.acquire st now obs = .ok c st') ∨
      ∃ n, ConnectionPool.acquire st now obs = .timeoutError n) := by
  refine ⟨markFirstIdle_none_iff, ?_, ?_, fun _ => rfl, ?_, ?_, ?_, ?_⟩
  · intro st now obs c cs h
    refine ⟨markFirstIdle_in_use _ _ _ h, ?_⟩
    simp only [ConnectionPool.acquire, h]
  · intro st now obs hall hcount
    have hmi : markFirstIdle st.connections = none :=
      (markFirstIdle_none_iff _).mpr hall
    simp only [ConnectionPool.acquire, hmi, if_pos hcount]
  · intro prev s rest c cs h
    simp only [acquirePoll, h]
  · intro prev s rest h
    simp only [acquirePoll, h]
  · intro st now obs hall hcount hobs
    have hmi : markFirstIdle st.connections = none :=
      (markFirstIdle_none_iff _).mpr hall
    simp only [ConnectionPool.acquire, hmi, if_neg hcount]
    exact acquirePoll_timeout obs st fun s hs =>
      (markFirstIdle_none_iff _).mpr (hobs s hs)
  · intro st now obs
    cases h : ConnectionPool.acquire st now obs with
    | ok c st' => exact Or.inl ⟨c, st', rfl⟩
    | timeoutError n => exact Or.inr ⟨n, rfl⟩

/-- A pool holding one idle connection, one short of its cap. -/
def demoPool : ConnectionPool :=
  { max_connections := 2, timeout := 30,
    connections := [{ id := 0, in_use := false, last_used := 0 }],
    connection_count := 1, next_id := 1 }

/-- Witness for `pool_acquire_contract` at a concrete pool. -/
theorem pool_acquire_contract_witness :
    markFirstIdle demoPool.connections =
      some ({ id := 0, in_use := true, last_used := 0 },
        [{ id := 0, in_use := true, last_used := 0 }]) ∧
    ConnectionPool.acquire demoPool 5 [] =
      .ok { id := 0, in_use := true, last_used := 0 }
        { demoPool with
            connections := [{ id := 0, in_use := true, last_used := 0 }] } :=
  ⟨rfl,
    (pool_acquire_contract.2.1 demoPool 5 []
      { id := 0, in_use := true, last_used := 0 }
      [{ id := 0, in_use := true, last_used := 0 }] rfl).2⟩

/-! ## Claim C4 -/

/-- The pool's bookkeeping invariant: `connection_count` equals the list
length (both are mutated together under the lock) and the list never
exceeds `max_connections`. -/
@[reducible] def PoolInv (st : ConnectionPool) : Prop :=
  st.connection_count = st.connections.length ∧
    st.connections.length ≤ st.max_connections

theorem filter_count_sub (l : List PoolConn) (p : PoolConn → Bool)
    (cnt : Nat) (h : cnt = l.length) :
    cnt - (l.length - (l.filter p).length) = (l.filter p).length := by
  have := List.length_filter_le p l
  omega

theorem applyPoolOp_inv (st : ConnectionPool) (op : PoolOp)
    (h : PoolInv st) :
    PoolInv (applyPoolOp st op) ∧
      (applyPoolOp st op).max_connections = st.max_connections := by
  obtain ⟨hcount, hlen⟩ := h
  cases op with
  | acquire now =>
    simp only [applyPoolOp]
    cases hmi : markFirstIdle st.connections with
    | some p =>
      obtain ⟨c, cs⟩ := p
      simp only [ConnectionPool.acquire, hmi]
      have hl := markFirstIdle_length st.connections c cs hmi
      exact ⟨⟨by simpa [hl] using hcount, by simpa [hl] using hlen⟩, trivial⟩
    | none =>
      simp only [ConnectionPool.acquire, hmi]
      by_cases hfull : st.connection_count < st.max_connections
      · rw [if_pos hfull]
        refine ⟨⟨?_, ?_⟩, rfl⟩
        · simp [hcount]
        · simp only [List.length_append, List.length_cons, List.length_nil]
          omega
      · rw [if_neg hfull]
        simp only [acquirePoll]
        exact ⟨⟨hcount, hlen⟩, trivial⟩
  | release cid now =>
    simp only [applyPoolOp, ConnectionPool.release]
    refine ⟨⟨?_, ?_⟩, trivial⟩
    · simpa using hcount
    · simpa using hlen
  | cleanup now maxIdle =>
    simp only [applyPoolOp, ConnectionPool.cleanup]
    refine ⟨⟨?_, ?_⟩, trivial⟩
    · exact filter_count_sub st.connections _ st.connection_count hcount
    · exact le_trans (List.length_filter_le _ _) hlen
  | closeAll =>
    simp only [applyPoolOp, ConnectionPool.close_all]
    exact ⟨⟨rfl, by simp⟩, trivial⟩

theorem applyPoolOps_inv (ops : List PoolOp) :
    ∀ st : ConnectionPool, PoolInv st →
      PoolInv (applyPoolOps st ops) ∧
        (applyPoolOps st ops).max_connections = st.max_connections := by
  induction ops with
  | nil => intro st h; exact ⟨h, rfl⟩
  | cons op rest ih =>
    intro st h
    have h1 := applyPoolOp_inv st op h
    have h2 := ih (applyPoolOp st op) h1.1
    exact ⟨h2.1, h2.2.trans h1.2⟩

/-- C4: starting from a fresh pool, after any sequence of atomic
`acquire` / `release` / `cleanup` / `close_all` operations, at most
`max_connections` connections are simultaneously marked `in_use` and the
pool never holds more than `max_connections` connections. -/
theorem pool_never_exceeds_max_connections :
    ∀ (maxc : Nat) (t : ℚ) (ops : List PoolOp),
      (applyPoolOps (ConnectionPool.init maxc t) ops).countInUse ≤ maxc ∧
      (applyPoolOps (ConnectionPool.init maxc t) ops).connections.length ≤
        maxc := by
  intro maxc t ops
  have h0 : PoolInv (ConnectionPool.init maxc t) := ⟨rfl, by simp [ConnectionPool.init]⟩
  obtain ⟨⟨-, hlen⟩, hmax⟩ := applyPoolOps_inv ops (ConnectionPool.init maxc t) h0
  rw [hmax] at hlen
  refine ⟨le_trans ?_ hlen, hlen⟩
  exact List.length_filter_le _ _

/-! ## Claim C6 -/

/-- Pool after the first `acquire` (fresh connection id 0 at time 0). -/
def poolA : ConnectionPool :=
  { max_connections := 2, timeout := 30,
    connections := [{ id := 0, in_use := true, last_used := 0 }],
    connection_count := 1, next_id := 1 }

/-- Pool after a second `acquire` (fresh connection id 1 at time 1). -/
def poolB : ConnectionPool :=
  { poolA with
      connections := [{ id := 0, in_use := true, last_used := 0 },
        { id := 1, in_use := true, last_used := 1 }],
      connection_count := 2, next_id := 2 }

/-- Pool after `release`-ing connection 0 at time 2: connection 0 is
idle, connection 1 is still owned by its caller. -/
def poolC : ConnectionPool :=
  { poolB with
      connections := [{ id := 0, in_use := false, last_used := 2 },
        { id := 1, in_use := true, last_used := 1 }] }

/-- Pool after `with pool:` re-acquires connection 0 (the first idle). -/
def poolD : ConnectionPool :=
  { poolC with
      connections := [{ id := 0, in_use := true, last_used := 2 },
        { id := 1, in_use := true, last_used := 1 }] }

/-- Pool after `ConnectionPool.__exit__` released `connections[-1]`:
connection 1 — owned by the other caller — was released, while the
acquired connection 0 is still marked `in_use` (leaked). -/
def poolE : ConnectionPool :=
  { poolD with
      connections := [{ id := 0, in_use := true, last_used := 2 },
        { id := 1, in_use := false, last_used := 4 }] }

/-- C6 evidence: `Connection.__exit__` commits, rolls back and releases
the entered connection itself and propagates exceptions (first two
conjuncts), but `ConnectionPool.__exit__` acts on `connections[-1]`:
in the reachable state `poolC` (acquire, acquire, release of id 0) the
`with pool:` block acquires connection 0, yet on exit commit and release
go to connection 1, and connection 0 stays `in_use` — the acquired
connection is leaked and another caller's connection is released. -/
theorem pool_exit_releases_wrong_connection :
    (∀ (cid : Nat) (exc : Bool) (st : ConnectionPool) (now : ℚ),
      (connectionExit cid exc st now).committed =
        (if exc then none else some cid) ∧
      (connectionExit cid exc st now).rolled_back =
        (if exc then some cid else none) ∧
      (connectionExit cid exc st now).released = some cid ∧
      (connectionExit cid exc st now).st = st.release cid now ∧
      (connectionExit cid exc st now).propagates = exc) ∧
    (ConnectionPool.acquire (ConnectionPool.init 2 30) 0 [] =
      .ok { id := 0, in_use := true, last_used := 0 } poolA) ∧
    (ConnectionPool.acquire poolA 1 [] =
      .ok { id := 1, in_use := true, last_used := 1 } poolB) ∧
    (poolB.release 0 2 = poolC) ∧
    (ConnectionPool.acquire poolC 3 [] =
      .ok { id := 0, in_use := true, last_used := 2 } poolD) ∧
    (connectionPoolExit poolD false 4 =
      some { committed := some 1, rolled_back := none, released := some 1,
             st := poolE, propagates := false }) ∧
    (some 1 ≠ some (0 : Nat)) ∧
    (poolE.connections = [{ id := 0, in_use := true, last_used := 2 },
      { id := 1, in_use := false, last_used := 4 }]) ∧
    ((poolE.connections.filter fun c => c.in_use).length = 1) := by
  refine ⟨fun cid exc st now => ⟨rfl, rfl, rfl, rfl, rfl⟩,
    rfl, rfl, ?_, rfl, ?_, by simp, rfl, rfl⟩
  · show ConnectionPool.release poolB 0 2 = poolC
    simp [ConnectionPool.release, poolB, poolA, poolC]
  · show connectionPoolExit poolD false 4 = _
    simp [connectionPoolExit, connectionExit, poolD, poolC, poolB, poolA,
      poolE, ConnectionPool.release]

/-- Witness for `delivery_queue_ordering` on a concrete queue. -/
theorem delivery_queue_ordering_witness :
    List.Chain'
      (fun a b : QueuedMessage => a.priority < b.priority ∨
        (a.priority = b.priority ∧ a.scheduled_time ≤ b.scheduled_time))
      (drain QueuedMessage.lt [demoMessage, demoMessage1]) :=
  delivery_queue_ordering.2.2.1 [demoMessage, demoMessage1]

/-- Witness for `pool_never_exceeds_max_connections` on a concrete
operation sequence. -/
theorem pool_never_exceeds_max_connections_witness :
    (applyPoolOps (ConnectionPool.init 2 30)
      [.acquire 0, .acquire 1, .acquire 2, .release 0 3]).countInUse ≤ 2 ∧
    (applyPoolOps (ConnectionPool.init 2 30)
      [.acquire 0, .acquire 1, .acquire 2,
        .release 0 3]).connections.length ≤ 2 :=
  pool_never_exceeds_max_connections 2 30
    [.acquire 0, .acquire 1, .acquire 2, .release 0 3]

/-- Witness for `enqueue_never_blocks_never_full` at concrete arguments. -/
theorem enqueue_never_blocks_never_full_witness :
    (MessageQueue.put demoQueue 7 "hi" 9 "group" 0 0).2 = true ∧
    (MessageQueue.put demoQueue 7 "hi" 9 "group" 0 0).1 =
      { demoQueue with queue := demoQueue.queue ++
          [QueuedMessage.make 7 "hi" 9 "group" 0 0 3 0] } :=
  enqueue_never_blocks_never_full demoQueue 7 "hi" 9 "group" 0 0

end QQbot
